import Mathlib

/-!
Verification of the OCI object-storage HA lock (physical/oci/oci_ha.go).

The Go code implements a leader-election primitive on top of an object store
offering compare-and-swap via ETags.  We embed the sequential bodies of the
relevant functions as pure Lean functions over explicit environments: every
remote call result (GET / PUT / DELETE outcome) and every reading of the
clock is a parameter, so a Lean run of a definition replays exactly one
execution of the corresponding Go function under that environment.

Durations are modelled in milliseconds as naturals.  Go computes signed
duration differences; since a cache `lastUpdate` in the future yields a
negative difference, which compares against the positive constants exactly
as the truncated natural subtraction does (0 > ttl is false, 0 < minAge is
true), `Nat` subtraction is branch-equivalent to the Go comparisons.
-/

namespace Oci

/-- LockRenewInterval (3 s), in milliseconds. -/
def LockRenewInterval : Nat := 3000

/-- LockRetryInterval (5 s), in milliseconds. -/
def LockRetryInterval : Nat := 5000

/-- LockWatchRetryInterval (2 s), in milliseconds. -/
def LockWatchRetryInterval : Nat := 2000

/-- LockTTL (15 s), in milliseconds. -/
def LockTTL : Nat := 15000

/-- LockWatchRetryMax: number of watch retries before giving up leadership. -/
def LockWatchRetryMax : Nat := 4

/-- LockCacheMinAcceptableAge (45 s), in milliseconds. -/
def LockCacheMinAcceptableAge : Nat := 45000

/-- LockWriteRetriesOnFailures: bound of the PUT attempt loop in writeLock. -/
def LockWriteRetriesOnFailures : Nat := 4

/-- LockRecord: the JSON document persisted in the bucket, one per lock key. -/
structure LockRecord where
  Key : String
  Value : String
  Identity : String
deriving DecidableEq, Repr

/-- LockCache: the in-memory snapshot {etag, lastUpdate, lockRecord} held in
the atomic `lockRecordCache`.  The Go `lockRecord` pointer may be nil, hence
`Option`. -/
structure LockCache where
  etag : String
  lastUpdate : Nat
  lockRecord : Option LockRecord
deriving DecidableEq, Repr

/-- Lock: the fields of the Go `Lock` struct that the embedded functions
read or write.  `lockRecordCache` is the value held by the atomic; `stopped`
mirrors the double-close guard flag. -/
structure Lock where
  key : String
  value : String
  identity : String
  held : Bool
  stopped : Bool
  lockRecordCache : Option LockCache
  renewInterval : Nat
  retryInterval : Nat
  ttl : Nat
  watchRetryInterval : Nat
  watchRetryMax : Nat
deriving DecidableEq, Repr

/-- Result of `l.get`: the Go function returns `(nil, "", nil)` on 404
(believed-absent object), a record and its ETag on success, and an error for
transport failures, 5xx, read or unmarshal failures. -/
inductive GetResult where
  | ok (record : Option LockRecord) (etag : String)
  | err
deriving DecidableEq, Repr

/-- Outcome of one PutObject attempt inside writeLock: success with the new
ETag, a transport error (the Go response RawResponse is nil), or an HTTP
error status. -/
inductive PutOutcome where
  | ok (etag : String)
  | transport
  | http (status : Nat)
deriving DecidableEq, Repr

/-- Predicate distinguishing responses the Go code classifies as 5xx
(StatusCode / 100 == 5). -/
def PutOutcome.is5xx : PutOutcome → Bool
  | .http s => s / 100 == 5
  | _ => false

/-- Log entry for one PUT attempt: its 1-based index, its outcome, and the
backoff slept after it (0 when the code does not sleep). -/
structure PutAttemptLog where
  idx : Nat
  outcome : PutOutcome
  sleptMs : Nat
deriving DecidableEq, Repr

/-- State threaded through the Go PUT retry loop: `newtEtag` (initially the
empty string), the latched `err` variable (true iff some attempt has failed;
the Go code never clears it on a later success), and the attempt log. -/
structure PutLoopState where
  newtEtag : String
  err : Bool
  log : List PutAttemptLog
deriving DecidableEq, Repr

/-- Embedding of the `for i := 1; i <= LockWriteRetriesOnFailures; i++` PUT
loop of writeLock.  On success the loop breaks with the new ETag; on a
transport error (nil RawResponse) it breaks; on a 5xx it sleeps
100ms*i and continues; on any other HTTP status it breaks.  The fuel
argument counts the iterations left, `i` is the Go loop index. -/
def putAttempts (outcomes : Nat → PutOutcome) : Nat → Nat → PutLoopState → PutLoopState
  | 0, _, st => st
  | fuel + 1, i, st =>
    match outcomes i with
    | .ok e =>
        { st with newtEtag := e, log := st.log ++ [⟨i, .ok e, 0⟩] }
    | .transport =>
        { st with err := true, log := st.log ++ [⟨i, .transport, 0⟩] }
    | .http s =>
        if s / 100 == 5 then
          putAttempts outcomes fuel (i + 1)
            { st with err := true, log := st.log ++ [⟨i, .http s, 100 * i⟩] }
        else
          { st with err := true, log := st.log ++ [⟨i, .http s, 0⟩] }

/-- Run of the PUT loop exactly as writeLock enters it: loop bound
`LockWriteRetriesOnFailures`, starting at attempt 1 with empty ETag, no
latched error and an empty log. -/
def runPut (outcomes : Nat → PutOutcome) : PutLoopState :=
  putAttempts outcomes LockWriteRetriesOnFailures 1 ⟨"", false, []⟩

/-- Preconditions carried by the PutObjectRequest: both fields are optional
pointers in the Go SDK; writeLock sets exactly one of them. -/
structure PutRequestPre where
  ifMatch : Option String
  ifNoneMatch : Option String
deriving DecidableEq, Repr

/-- Environment of one writeLock call: the clock readings at the staleness
check, the secondary-path cache store, the freshness gate, and the final
cache store; the result of the secondary-path GET; whether the request-id
UUID generation succeeds; and the outcome of each PUT attempt.
json.Marshal of a record of three strings cannot fail and is modelled as
always succeeding. -/
structure WriteLockEnv where
  tStale : Nat
  tStore : Nat
  tGate : Nat
  tFinal : Nat
  getResult : GetResult
  uuidOk : Bool
  putOutcomes : Nat → PutOutcome

/-- Final outcome of writeLock: the returned `(acquired, err)` pair, or the
marker that the Go code would have dereferenced a nil `lockRecordCache`
pointer (reading `.lastUpdate` at the gate or `.etag` at precondition
selection). -/
inductive WLOutcome where
  | res (acquired : Bool) (hasErr : Bool)
  | nilCacheDeref
deriving DecidableEq, Repr

/-- Observable result of one writeLock call: the outcome, the cache value
after the call, whether the secondary-path GET was issued, the precondition
of the constructed PUT request (none when no PUT request was built), the
cache snapshot read at precondition selection, and the PUT attempt log. -/
structure WriteLockResult where
  outcome : WLOutcome
  cacheAfter : Option LockCache
  getIssued : Bool
  preUsed : Option PutRequestPre
  cacheAtPut : Option LockCache
  putLog : List PutAttemptLog
deriving DecidableEq, Repr

/-- Secondary-path test of writeLock: cache nil, record nil, record not
self-owned, or cache older than ttl. -/
def secondaryCond (l : Lock) (t : Nat) : Bool :=
  match l.lockRecordCache with
  | none => true
  | some c =>
    match c.lockRecord with
    | none => true
    | some r => r.Identity != l.identity || decide (t - c.lastUpdate > l.ttl)

/-- New record `{Key: l.key, Value: l.value, Identity: l.identity}` built by
writeLock before the PUT. -/
def newLockRecord (l : Lock) : LockRecord :=
  ⟨l.key, l.value, l.identity⟩

/-- Embedding of the tail of writeLock after the secondary-path block:
marshal the new record, generate the request id, select the PUT
precondition from the cache snapshot, run the PUT retry loop, and on a clear
`err` store the fresh self-owned cache and return success. -/
def writeLockPut (l : Lock) (env : WriteLockEnv) (cache1 : Option LockCache)
    (getIssued : Bool) : WriteLockResult :=
  if env.uuidOk then
    match cache1 with
    | none =>
        ⟨.nilCacheDeref, cache1, getIssued, none, none, []⟩
    | some c =>
        let pre : PutRequestPre :=
          if c.etag = "" then ⟨none, some ("*")⟩ else ⟨some c.etag, none⟩
        let st := runPut env.putOutcomes
        if st.err then
          ⟨.res false true, cache1, getIssued, some pre, cache1, st.log⟩
        else
          ⟨.res true false,
            some ⟨st.newtEtag, env.tFinal, some (newLockRecord l)⟩,
            getIssued, some pre, cache1, st.log⟩
  else
    ⟨.res false true, cache1, getIssued, none, none, []⟩

/-- Secondary-path cache refresh of writeLock: the GET result replaces the
cache whenever the snapshot was nil or its ETag differs from the one just
observed; otherwise the snapshot is kept, so `lastUpdate` still records the
instant the current ETag was first observed. -/
def cacheRefresh (cache0 : Option LockCache) (rec : Option LockRecord)
    (etag : String) (tStore : Nat) : Option LockCache :=
  let refreshed : Bool :=
    match cache0 with
    | none => true
    | some c => c.etag != etag
  if refreshed then some ⟨etag, tStore, rec⟩ else cache0

/-- Embedding of writeLock.  On the secondary path the GET result refreshes
the cache via `cacheRefresh`; then the freshness gate fails the attempt when
a non-null record was observed and the cache is younger than
LockCacheMinAcceptableAge.  The Go gate reads `lockRecordCache.lastUpdate`
only when the record is non-null, which `nilCacheDeref` makes explicit. -/
def writeLock (l : Lock) (env : WriteLockEnv) : WriteLockResult :=
  if secondaryCond l env.tStale then
    match env.getResult with
    | .err =>
        ⟨.res false true, l.lockRecordCache, true, none, none, []⟩
    | .ok rec etag =>
        let cache1 : Option LockCache :=
          cacheRefresh l.lockRecordCache rec etag env.tStore
        match rec with
        | some _ =>
            match cache1 with
            | none => ⟨.nilCacheDeref, cache1, true, none, none, []⟩
            | some c1 =>
                if env.tGate - c1.lastUpdate < LockCacheMinAcceptableAge then
                  ⟨.res false false, cache1, true, none, none, []⟩
                else
                  writeLockPut l env cache1 true
        | none => writeLockPut l env cache1 true
  else
    writeLockPut l env l.lockRecordCache false

/-! ### Unlock -/

/-- Remote calls an Unlock run can issue, in order: the GET of the current
record and the conditional DELETE carrying its IfMatch ETag. -/
inductive RemoteCall where
  | getCall
  | deleteCall (ifMatch : String)
deriving DecidableEq, Repr

/-- Environment of one Unlock call: the result of the GET of the current
record, whether the request-id UUID generation succeeds, and whether the
DeleteObject call succeeds. -/
structure UnlockEnv where
  getResult : GetResult
  uuidOk : Bool
  deleteOk : Bool
deriving Repr

/-- Observable result of one Unlock call: the lock state after the call,
the remote calls issued in order, and whether an error was returned. -/
structure UnlockResult where
  lockAfter : Lock
  calls : List RemoteCall
  err : Bool
deriving DecidableEq, Repr

/-- Embedding of Unlock.  If the lock is not held it returns nil at once.
Otherwise it closes stopCh (modelled by the `stopped` flag), clears `held`,
GETs the current record, and only when that record still names the lock
instance identity issues a conditional DELETE whose IfMatch is the ETag the
GET returned. -/
def Unlock (l : Lock) (env : UnlockEnv) : UnlockResult :=
  if l.held then
    let l1 := { l with stopped := true, held := false }
    match env.getResult with
    | .err => ⟨l1, [.getCall], true⟩
    | .ok rec etag =>
        match rec with
        | some r =>
            if r.Identity = l.identity then
              if env.uuidOk then
                ⟨l1, [.getCall, .deleteCall etag], !env.deleteOk⟩
              else
                ⟨l1, [.getCall], true⟩
            else
              ⟨l1, [.getCall], false⟩
        | none => ⟨l1, [.getCall], false⟩
  else
    ⟨l, [], false⟩

/-- Number of DELETE calls in a remote-call list. -/
def countDeletes (calls : List RemoteCall) : Nat :=
  calls.countP (fun c => match c with | .deleteCall _ => true | _ => false)

/-! ### Watch loop -/

/-- Result of the GET issued by one watch iteration: the watch path ignores
the ETag, so only the record (or the error) is kept. -/
inductive WatchGet where
  | err
  | ok (record : Option LockRecord)
deriving DecidableEq, Repr

/-- Environment of one watch-loop iteration: whether stopCh is observed
closed at the top of the loop or while waiting for the ticker, the clock
reading at the cache staleness check, the cache snapshot read from the
atomic, and the GET result. -/
structure WatchTickEnv where
  stopAtTop : Bool
  stopDuringWait : Bool
  now : Nat
  cache : Option LockCache
  getRes : WatchGet
deriving Repr

/-- Outcome of one watch-loop iteration: either the loop breaks out (and
the epilogue closes stopCh unless it was already closed), or it continues
with the new value of the consecutive-failure counter. -/
inductive WatchStepOut where
  | broke
  | next (retries : Nat)
deriving DecidableEq, Repr

/-- Embedding of one iteration of the watch loop body, returning its
outcome and whether a GET was issued.  In source order: the stopCh poll,
the retries bound check (`retries >= watchRetryMax - 1`), the ticker wait,
the cache validity check (nil, nil record, not self-owned, or older than
ttl), then the GET; a GET error increments the counter, a successful GET
naming self resets it to zero, and any other GET result breaks the loop. -/
def watchStep (l : Lock) (retries : Nat) (env : WatchTickEnv) :
    WatchStepOut × Bool :=
  if env.stopAtTop then (.broke, false)
  else if retries ≥ l.watchRetryMax - 1 then (.broke, false)
  else if env.stopDuringWait then (.broke, false)
  else
    match env.cache with
    | none => (.broke, false)
    | some c =>
        match c.lockRecord with
        | none => (.broke, false)
        | some r =>
            if r.Identity != l.identity then (.broke, false)
            else if env.now - c.lastUpdate > l.ttl then (.broke, false)
            else
              match env.getRes with
              | .err => (.next (retries + 1), true)
              | .ok none => (.broke, true)
              | .ok (some r2) =>
                  if r2.Identity != l.identity then (.broke, true)
                  else (.next 0, true)

/-- Run of the watch loop over a list of iteration environments, starting
from a given consecutive-failure counter.  Returns the number of GETs
issued and whether the loop broke out (after which the epilogue closes
stopCh when not already stopped, surrendering leadership). -/
def watchRun (l : Lock) (retries : Nat) : List WatchTickEnv → Nat × Bool
  | [] => (0, false)
  | env :: rest =>
      match watchStep l retries env with
      | (.broke, issued) => (if issued then 1 else 0, true)
      | (.next r, issued) =>
          let t := watchRun l r rest
          ((if issued then 1 else 0) + t.1, t.2)

/-! ### Lock construction -/

/-- Embedding of Backend.LockWith: generate the instance identity (the only
fallible step) and return a fresh Lock with the package-constant durations.
No field of the configuration is validated. -/
def LockWith (uuidResult : Except Unit String) (key value : String) :
    Except Unit Lock :=
  match uuidResult with
  | .error e => .error e
  | .ok identity =>
      .ok { key := key
            value := value
            identity := identity
            held := false
            stopped := true
            lockRecordCache := none
            renewInterval := LockRenewInterval
            retryInterval := LockRetryInterval
            ttl := LockTTL
            watchRetryInterval := LockWatchRetryInterval
            watchRetryMax := LockWatchRetryMax }

/-- Direct modification of the Lock duration fields.  The Go struct comment
reads "Allow modifying the Lock durations for ease of unit testing": the
fields are plain struct members assigned without any validation, which this
function mirrors. -/
def setTestDurations (l : Lock) (renew retry ttl watchI watchMax : Nat) : Lock :=
  { l with renewInterval := renew, retryInterval := retry, ttl := ttl,
           watchRetryInterval := watchI, watchRetryMax := watchMax }

/-- Lock construction followed by the unvalidated test-path duration
modification. -/
def configuredLock (uuidResult : Except Unit String) (key value : String)
    (renew retry ttl watchI watchMax : Nat) : Except Unit Lock :=
  match LockWith uuidResult key value with
  | .error e => .error e
  | .ok l => .ok (setTestDurations l renew retry ttl watchI watchMax)

/-- Truth value of an Except being a success. -/
def exceptOk : Except Unit Lock → Bool
  | .ok _ => true
  | .error _ => false

/-! ### Derived notions used by the statements -/

/-- Length of the run of consecutive 5xx outcomes the PUT loop would see
starting at attempt `i`, bounded by the remaining fuel. -/
def leading5 (outcomes : Nat → PutOutcome) : Nat → Nat → Nat
  | 0, _ => 0
  | fuel + 1, i =>
      if (outcomes i).is5xx then leading5 outcomes fuel (i + 1) + 1 else 0

/-- Watch iteration environments in which the loop never observes a closed
stopCh, always sees a fresh self-owned cache, and every GET fails. -/
def allFailHealthy (l : Lock) (envs : List WatchTickEnv) : Prop :=
  ∀ e ∈ envs, e.stopAtTop = false ∧ e.stopDuringWait = false ∧
    e.getRes = WatchGet.err ∧
    ∃ c r, e.cache = some c ∧ c.lockRecord = some r ∧
      r.Identity = l.identity ∧ e.now - c.lastUpdate ≤ l.ttl

/-! ### Claim statements as propositions

The next definitions render three spec sentences literally, to be compared
with the behaviour of the embedded code. -/

/-- Spec sentence, rendered literally: every PUT attempt that fails with a
transport error or a 5xx response is, while the attempt budget is not
exhausted, followed by a further attempt. -/
def putRetryClaim : Prop :=
  ∀ (o : Nat → PutOutcome) (i : Nat),
    i < LockWriteRetriesOnFailures →
    (∃ a ∈ (runPut o).log, a.idx = i ∧
      (a.outcome = PutOutcome.transport ∨ a.outcome.is5xx = true)) →
    ∃ a ∈ (runPut o).log, a.idx = i + 1

/-- Spec sentence, rendered literally: a run of the watch loop over ticks
whose GETs all fail (with a healthy self-owned cache throughout) surrenders
only after issuing watchRetryMax failed GETs. -/
def watchSurrenderClaim : Prop :=
  ∀ (l : Lock) (envs : List WatchTickEnv),
    l.watchRetryMax = LockWatchRetryMax →
    allFailHealthy l envs →
    (watchRun l 0 envs).2 = true →
    (watchRun l 0 envs).1 = LockWatchRetryMax

/-- Spec sentence, rendered literally: every conditional DELETE issued by
Unlock carries as its IfMatch precondition the ETag held in the lock record
cache. -/
def unlockDeleteUsesCachedEtag : Prop :=
  ∀ (l : Lock) (env : UnlockEnv) (e : String),
    RemoteCall.deleteCall e ∈ (Unlock l env).calls →
    ∃ c, l.lockRecordCache = some c ∧ c.etag = e

/-- Spec sentence, rendered literally: lock construction fails whenever the
configured durations violate lockCacheMinAcceptableAge > ttl >
renewInterval. -/
def constructionValidatesDurations : Prop :=
  ∀ (u : Except Unit String) (k v : String) (renew retry ttl wI wM : Nat),
    ¬ (LockCacheMinAcceptableAge > ttl ∧ ttl > renew) →
    exceptOk (configuredLock u k v renew retry ttl wI wM) = false

/-! ### Sample values used by counterexamples and witnesses -/

/-- Sample lock instance holding the lease with a fresh self-owned cache
under ETag E0, used to evaluate the embedded operations at concrete
inputs. -/
def sampleLock : Lock :=
  ⟨"k", "v", "A", true, false, some ⟨"E0", 0, some ⟨"k", "v", "A"⟩⟩,
    LockRenewInterval, LockRetryInterval, LockTTL, LockWatchRetryInterval,
    LockWatchRetryMax⟩

/-- Watch iteration environment with a healthy self-owned cache whose GET
fails. -/
def failTick : WatchTickEnv :=
  ⟨false, false, 5, some ⟨"E0", 0, some ⟨"k", "v", "A"⟩⟩, WatchGet.err⟩

/-- Watch iteration environment with a healthy self-owned cache whose GET
succeeds and still names this instance. -/
def okTick : WatchTickEnv :=
  ⟨false, false, 5, some ⟨"E0", 0, some ⟨"k", "v", "A"⟩⟩,
    WatchGet.ok (some ⟨"k", "v", "A"⟩)⟩

/-- The sample lock with the lease released. -/
def sampleUnheld : Lock :=
  ⟨"k", "v", "A", false, false, some ⟨"E0", 0, some ⟨"k", "v", "A"⟩⟩,
    LockRenewInterval, LockRetryInterval, LockTTL, LockWatchRetryInterval,
    LockWatchRetryMax⟩

/-- The lock LockWith builds for key k, value v under identity id. -/
def sampleConstructedLock : Lock :=
  ⟨"k", "v", "id", false, true, none, LockRenewInterval, LockRetryInterval,
    LockTTL, LockWatchRetryInterval, LockWatchRetryMax⟩

/-- Unlock environment whose GET sees a record of this instance under the
remote ETag EREMOTE. -/
def sampleUnlockEnv : UnlockEnv :=
  ⟨GetResult.ok (some ⟨"k", "v", "A"⟩) ("EREMOTE"), true, true⟩

/-- writeLock environment: stale cache, GET observing another instance
record under a new ETag. -/
def envGate : WriteLockEnv :=
  ⟨99999, 99999, 99999, 99999,
    GetResult.ok (some ⟨"k", "v", "B"⟩) ("EB"), true,
    fun _ => PutOutcome.ok ("E1")⟩

/-- writeLock environment: stale cache, GET observing no object (404). -/
def envAbsent : WriteLockEnv :=
  ⟨99999, 99999, 99999, 100000, GetResult.ok none (""), true,
    fun _ => PutOutcome.ok ("E1")⟩

/-- writeLock environment for a renewal with a fresh self-owned cache and a
first-attempt PUT success. -/
def envRenew : WriteLockEnv :=
  ⟨100, 100, 100, 200, GetResult.ok none (""), true,
    fun _ => PutOutcome.ok ("E1")⟩

/-! ## Lemmas about the PUT retry loop -/

/-- Once the latched `err` variable of the PUT loop is set, no later
iteration clears it. -/
theorem putAttempts_err_mono (o : Nat → PutOutcome) :
    ∀ (f i : Nat) (st : PutLoopState), st.err = true →
      (putAttempts o f i st).err = true := by
  intro f
  induction f with
  | zero => intro i st h; simpa [putAttempts] using h
  | succ f ih =>
      intro i st h
      unfold putAttempts
      split
      · simpa using h
      · simp
      · split
        · exact ih _ _ rfl
        · simp

/-- A run of the PUT loop that ends with a clear `err` made exactly one
attempt, and that attempt succeeded: any failure latches `err` for good. -/
theorem putAttempts_first_ok (o : Nat → PutOutcome) (f i : Nat)
    (st : PutLoopState) (hf : 1 ≤ f)
    (h : (putAttempts o f i st).err = false) :
    ∃ e, o i = PutOutcome.ok e ∧
      putAttempts o f i st =
        { st with newtEtag := e, log := st.log ++ [⟨i, PutOutcome.ok e, 0⟩] } := by
  match f, hf with
  | f + 1, _ =>
      unfold putAttempts at h
      split at h
      next e heq =>
        refine ⟨e, heq, ?_⟩
        unfold putAttempts
        rw [heq]
      next heq => simp at h
      next s heq =>
        split at h
        next =>
          rw [putAttempts_err_mono o f (i + 1) _ rfl] at h
          exact absurd h (by simp)
        next => simp at h

/-- Number of attempts the PUT loop makes: one more than the leading run of
5xx outcomes, capped by the remaining fuel. -/
theorem putAttempts_length (o : Nat → PutOutcome) :
    ∀ (f i : Nat) (st : PutLoopState),
      (putAttempts o f i st).log.length =
        st.log.length + min f (leading5 o f i + 1) := by
  intro f
  induction f with
  | zero => intro i st; simp [putAttempts]
  | succ f ih =>
      intro i st
      unfold putAttempts
      split
      next e heq => simp [leading5, heq, PutOutcome.is5xx]
      next heq => simp [leading5, heq, PutOutcome.is5xx]
      next s heq =>
        by_cases h5 : s / 100 == 5
        · rw [if_pos h5, ih]
          simp only [leading5, heq, PutOutcome.is5xx, h5, if_true,
            List.length_append, List.length_cons, List.length_nil]
          omega
        · rw [if_neg h5]
          simp [leading5, heq, PutOutcome.is5xx, h5]

/-- Every log entry of the PUT loop records the outcome the environment
gave that attempt, and the backoff actually slept: 100 ms times the attempt
index after a 5xx, none otherwise. -/
theorem putAttempts_entries (o : Nat → PutOutcome) :
    ∀ (f i : Nat) (st : PutLoopState),
      (∀ a ∈ st.log, a.outcome = o a.idx ∧
        a.sleptMs = (if a.outcome.is5xx then 100 * a.idx else 0)) →
      ∀ a ∈ (putAttempts o f i st).log, a.outcome = o a.idx ∧
        a.sleptMs = (if a.outcome.is5xx then 100 * a.idx else 0) := by
  intro f
  induction f with
  | zero => intro i st h; simpa [putAttempts] using h
  | succ f ih =>
      intro i st h
      unfold putAttempts
      split
      next e heq =>
        intro a ha
        simp only [List.mem_append, List.mem_singleton] at ha
        rcases ha with ha | ha
        · exact h a ha
        · subst ha; simp [heq, PutOutcome.is5xx]
      next heq =>
        intro a ha
        simp only [List.mem_append, List.mem_singleton] at ha
        rcases ha with ha | ha
        · exact h a ha
        · subst ha; simp [heq, PutOutcome.is5xx]
      next s heq =>
        by_cases h5 : s / 100 == 5
        · rw [if_pos h5]
          refine ih (i + 1) _ ?_
          intro a ha
          simp only [List.mem_append, List.mem_singleton] at ha
          rcases ha with ha | ha
          · exact h a ha
          · subst ha; simp [heq, PutOutcome.is5xx, h5]
        · rw [if_neg h5]
          intro a ha
          simp only [List.mem_append, List.mem_singleton] at ha
          rcases ha with ha | ha
          · exact h a ha
          · subst ha; simp [heq, PutOutcome.is5xx, h5]

/-- Attempt indices of the PUT loop are consecutive, starting at the index
the loop was entered with. -/
theorem putAttempts_idx (o : Nat → PutOutcome) :
    ∀ (f i : Nat) (st : PutLoopState),
      (putAttempts o f i st).log.map PutAttemptLog.idx =
        st.log.map PutAttemptLog.idx ++
          List.range' i (min f (leading5 o f i + 1)) := by
  intro f
  induction f with
  | zero => intro i st; simp [putAttempts]
  | succ f ih =>
      intro i st
      unfold putAttempts
      split
      next e heq => simp [leading5, heq, PutOutcome.is5xx]
      next heq => simp [leading5, heq, PutOutcome.is5xx]
      next s heq =>
        by_cases h5 : s / 100 == 5
        · rw [if_pos h5, ih]
          have hlead : leading5 o (f + 1) i = leading5 o f (i + 1) + 1 := by
            simp [leading5, heq, PutOutcome.is5xx, h5]
          rw [hlead]
          have hmin : min (f + 1) (leading5 o f (i + 1) + 1 + 1) =
              min f (leading5 o f (i + 1) + 1) + 1 := by omega
          rw [hmin, List.range'_succ]
          simp
        · rw [if_neg h5]
          simp [leading5, heq, PutOutcome.is5xx, h5]

/-- C3: the claim that transport errors are retried is false: a PUT attempt
failing with a transport error (nil response) breaks out of the retry loop
immediately, even with attempt budget left. -/
theorem C3_counterexample : ¬ putRetryClaim := by
  intro h
  have h1 := h (fun n => if n = 1 then PutOutcome.transport else PutOutcome.ok ("E")) 1
    (by decide)
    (by decide)
  revert h1
  decide

/-- C3 (amended): in the PUT loop of writeLock only 5xx responses are
retried; the loop makes one attempt more than the leading run of 5xx
outcomes, capped at LockWriteRetriesOnFailures attempts in total, each
attempt is logged with the outcome the store gave it, a backoff of 100 ms
times the attempt index is slept after each 5xx failure and no backoff
otherwise, and attempt indices are consecutive from 1 — so a transport
error or a 4xx (precondition-failed included) ends the loop for this tick
with no retry. -/
theorem C3_put_retry_policy (o : Nat → PutOutcome) :
    (runPut o).log.length =
        min LockWriteRetriesOnFailures (leading5 o LockWriteRetriesOnFailures 1 + 1)
    ∧ (∀ a ∈ (runPut o).log, a.outcome = o a.idx ∧
        a.sleptMs = (if a.outcome.is5xx then 100 * a.idx else 0))
    ∧ (runPut o).log.map PutAttemptLog.idx = List.range' 1 (runPut o).log.length := by
  refine ⟨?_, ?_, ?_⟩
  · simpa using putAttempts_length o LockWriteRetriesOnFailures 1 ⟨"", false, []⟩
  · exact putAttempts_entries o LockWriteRetriesOnFailures 1 ⟨"", false, []⟩ (by simp)
  · have h1 := putAttempts_idx o LockWriteRetriesOnFailures 1 ⟨"", false, []⟩
    have h2 := putAttempts_length o LockWriteRetriesOnFailures 1 ⟨"", false, []⟩
    simp only [runPut]
    rw [h1, h2]
    simp

/-! ## Lemmas about writeLock -/

/-- The secondary-path cache refresh never leaves the cache empty. -/
theorem cacheRefresh_isSome (cache0 : Option LockCache) (rec : Option LockRecord)
    (etag : String) (tStore : Nat) :
    ∃ c, cacheRefresh cache0 rec etag tStore = some c := by
  unfold cacheRefresh
  cases cache0 with
  | none => exact ⟨_, rfl⟩
  | some c =>
      by_cases h : c.etag != etag
      · exact ⟨_, by rw [if_pos h]⟩
      · exact ⟨c, by rw [if_neg h]⟩

/-- When the secondary-path test fails, the cache snapshot holds a record
owned by this instance. -/
theorem secondaryCond_false (l : Lock) (t : Nat)
    (h : secondaryCond l t = false) :
    ∃ c r, l.lockRecordCache = some c ∧ c.lockRecord = some r ∧
      r.Identity = l.identity := by
  unfold secondaryCond at h
  split at h
  · simp at h
  next c hc =>
    split at h
    · simp at h
    next r hr =>
      simp only [Bool.or_eq_false_iff, bne_eq_false_iff_eq] at h
      exact ⟨c, r, hc, hr, h.1⟩

/-- Applied to a non-empty cache snapshot, the PUT tail of writeLock never
reports a nil-cache dereference. -/
theorem writeLockPut_no_deref (l : Lock) (env : WriteLockEnv) (c : LockCache)
    (gi : Bool) :
    (writeLockPut l env (some c) gi).outcome ≠ WLOutcome.nilCacheDeref := by
  by_cases hu : env.uuidOk
  all_goals by_cases herr : (runPut env.putOutcomes).err
  all_goals by_cases he : c.etag = ""
  all_goals simp [writeLockPut, hu, herr, he]

/-- When the PUT tail of writeLock returns acquired, the PUT loop made a
single, successful attempt, and the cache stored at return carries that
attempt ETag, the final clock reading and the freshly written self-owned
record. -/
theorem writeLockPut_success (l : Lock) (env : WriteLockEnv)
    (cache1 : Option LockCache) (gi b : Bool)
    (h : (writeLockPut l env cache1 gi).outcome = WLOutcome.res true b) :
    b = false ∧ ∃ e, env.putOutcomes 1 = PutOutcome.ok e ∧
      (writeLockPut l env cache1 gi).putLog = [⟨1, PutOutcome.ok e, 0⟩] ∧
      (writeLockPut l env cache1 gi).cacheAfter =
        some ⟨e, env.tFinal, some (newLockRecord l)⟩ := by
  by_cases hu : env.uuidOk
  · cases cache1 with
    | none => simp [writeLockPut, hu] at h
    | some c =>
        by_cases herr : (runPut env.putOutcomes).err
        · simp [writeLockPut, hu, herr] at h
        · simp only [Bool.not_eq_true] at herr
          obtain ⟨e, hoe, hrun⟩ :=
            putAttempts_first_ok env.putOutcomes LockWriteRetriesOnFailures 1
              ⟨"", false, []⟩ (by decide) herr
          have hrun2 : runPut env.putOutcomes =
              ⟨e, false, [⟨1, PutOutcome.ok e, 0⟩]⟩ := by
            simpa [runPut] using hrun
          simp [writeLockPut, hu, hrun2] at h ⊢
          exact ⟨h, hoe⟩
  · simp [writeLockPut, hu] at h

/-- When the PUT tail of writeLock built a PUT request, the precondition
was chosen from the cache snapshot it read: IfNoneMatch star for an empty
cached ETag and IfMatch with the cached ETag otherwise. -/
theorem writeLockPut_pre (l : Lock) (env : WriteLockEnv)
    (cache1 : Option LockCache) (gi : Bool) (pre : PutRequestPre)
    (h : (writeLockPut l env cache1 gi).preUsed = some pre) :
    ∃ c, (writeLockPut l env cache1 gi).cacheAtPut = some c ∧
      ((c.etag = "" ∧ pre.ifMatch = none ∧ pre.ifNoneMatch = some ("*")) ∨
       (c.etag ≠ "" ∧ pre.ifMatch = some c.etag ∧ pre.ifNoneMatch = none)) := by
  by_cases hu : env.uuidOk
  · cases cache1 with
    | none => simp [writeLockPut, hu] at h
    | some c =>
        by_cases herr : (runPut env.putOutcomes).err
        all_goals by_cases he : c.etag = ""
        all_goals simp [writeLockPut, hu, herr, he] at h ⊢
        all_goals subst h
        all_goals simp [he]
  · simp [writeLockPut, hu] at h

/-- Under a generated request id, the PUT tail logs exactly the attempts of
the PUT retry loop. -/
theorem writeLockPut_putLog (l : Lock) (env : WriteLockEnv) (c : LockCache)
    (gi : Bool) (hu : env.uuidOk = true) :
    (writeLockPut l env (some c) gi).putLog = (runPut env.putOutcomes).log := by
  by_cases herr : (runPut env.putOutcomes).err
  all_goals by_cases he : c.etag = ""
  all_goals simp [writeLockPut, hu, herr, he]

/-- The PUT retry loop always makes at least one attempt. -/
theorem runPut_log_ne_nil (o : Nat → PutOutcome) : (runPut o).log ≠ [] := by
  intro hnil
  have hlen := putAttempts_length o LockWriteRetriesOnFailures 1 ⟨"", false, []⟩
  rw [runPut] at hnil
  rw [hnil] at hlen
  simp only [List.length_nil, List.length] at hlen
  have : 0 < min LockWriteRetriesOnFailures (leading5 o LockWriteRetriesOnFailures 1 + 1) := by
    have h4 : (0 : Nat) < LockWriteRetriesOnFailures := by decide
    omega
  omega

/-- Every execution of writeLock either reduces to its PUT tail applied to
a non-empty cache snapshot, or returns early (GET error or freshness gate)
with no PUT request built and acquired = false. -/
theorem writeLock_early_or_put (l : Lock) (env : WriteLockEnv) :
    (∃ c1 gi, writeLock l env = writeLockPut l env (some c1) gi) ∨
    ((writeLock l env).preUsed = none ∧ (writeLock l env).putLog = [] ∧
      ∃ b, (writeLock l env).outcome = WLOutcome.res false b) := by
  by_cases hsec : secondaryCond l env.tStale
  · cases hg : env.getResult with
    | err =>
        right
        simp [writeLock, hsec, hg]
    | ok rec etag =>
        obtain ⟨c1, hc1⟩ := cacheRefresh_isSome l.lockRecordCache rec etag env.tStore
        cases rec with
        | some r =>
            by_cases hage : env.tGate - c1.lastUpdate < LockCacheMinAcceptableAge
            · right
              simp [writeLock, hsec, hg, hc1, hage]
            · left
              exact ⟨c1, true, by simp [writeLock, hsec, hg, hc1, hage]⟩
        | none =>
            left
            exact ⟨c1, true, by simp [writeLock, hsec, hg, hc1]⟩
  · obtain ⟨c, r, hc, hr, hid⟩ := secondaryCond_false l env.tStale (by simpa using hsec)
    left
    exact ⟨c, false, by simp [writeLock, hsec, hc]⟩

/-- C10: for every execution of writeLock that reaches the PUT-precondition
selection, the loaded cache snapshot is non-nil — the secondary path stores
a fresh cache entry whenever the snapshot was nil or its ETag changed — so
reading the cached ETag to choose between IfMatch and IfNoneMatch never
dereferences a nil cache. -/
theorem C10_no_nil_cache_deref (l : Lock) (env : WriteLockEnv) :
    (writeLock l env).outcome ≠ WLOutcome.nilCacheDeref := by
  rcases writeLock_early_or_put l env with ⟨c1, gi, heq⟩ | ⟨_, _, b, hb⟩
  · rw [heq]
    exact writeLockPut_no_deref l env c1 gi
  · rw [hb]
    simp

/-- C5: every PUT request writeLock builds carries exactly one of IfMatch
or IfNoneMatch — IfNoneMatch star when the cached ETag is the empty string
(believed-absent object) and IfMatch with the cached ETag otherwise; never
both and never neither. -/
theorem C5_cas_honesty (l : Lock) (env : WriteLockEnv) (pre : PutRequestPre)
    (h : (writeLock l env).preUsed = some pre) :
    ∃ c, (writeLock l env).cacheAtPut = some c ∧
      ((c.etag = "" ∧ pre.ifMatch = none ∧ pre.ifNoneMatch = some ("*")) ∨
       (c.etag ≠ "" ∧ pre.ifMatch = some c.etag ∧ pre.ifNoneMatch = none)) := by
  rcases writeLock_early_or_put l env with ⟨c1, gi, heq⟩ | ⟨hpre, _, _⟩
  · rw [heq] at h ⊢
    exact writeLockPut_pre l env (some c1) gi pre h
  · rw [hpre] at h
    exact absurd h (by simp)

/-- C9: whenever writeLock returns acquired with no error, the PUT loop
made a single successful attempt, and the cache stored at return holds
exactly the record {Key: l.key, Value: l.value, Identity: l.identity} that
was written, the final clock reading, and the ETag returned by that
successful PUT — a fresh self-owned cache. -/
theorem C9_success_stores_self_owned_cache (l : Lock) (env : WriteLockEnv)
    (b : Bool) (h : (writeLock l env).outcome = WLOutcome.res true b) :
    b = false ∧ ∃ e, env.putOutcomes 1 = PutOutcome.ok e ∧
      (writeLock l env).putLog = [⟨1, PutOutcome.ok e, 0⟩] ∧
      (writeLock l env).cacheAfter =
        some ⟨e, env.tFinal, some ⟨l.key, l.value, l.identity⟩⟩ := by
  rcases writeLock_early_or_put l env with ⟨c1, gi, heq⟩ | ⟨_, _, b2, hb⟩
  · rw [heq] at h ⊢
    obtain ⟨hb, e, hoe, hlog, hcache⟩ :=
      writeLockPut_success l env (some c1) gi b h
    exact ⟨hb, e, hoe, hlog, by simpa [newLockRecord] using hcache⟩
  · rw [hb] at h
    simp at h

/-- C2: on the secondary path (cache nil, record nil, not self-owned, or
older than ttl), a non-null record observed by the GET whose cache age since
its ETag was first observed is below LockCacheMinAcceptableAge makes
writeLock return acquired = false with nil error, no PUT request built and
no PUT attempt issued; a null record skips the gate and a PUT is issued. -/
theorem C2_freshness_gate (l : Lock) (env : WriteLockEnv)
    (hsec : secondaryCond l env.tStale = true) :
    (∀ r e c1, env.getResult = GetResult.ok (some r) e →
       cacheRefresh l.lockRecordCache (some r) e env.tStore = some c1 →
       env.tGate - c1.lastUpdate < LockCacheMinAcceptableAge →
       writeLock l env =
         ⟨WLOutcome.res false false, some c1, true, none, none, []⟩)
    ∧ (∀ e, env.getResult = GetResult.ok none e → env.uuidOk = true →
       (writeLock l env).putLog ≠ []) := by
  constructor
  · intro r e c1 hg hcr hage
    simp [writeLock, hsec, hg, hcr, hage]
  · intro e hg hu
    obtain ⟨c1, hc1⟩ := cacheRefresh_isSome l.lockRecordCache none e env.tStore
    have heq : writeLock l env = writeLockPut l env (some c1) true := by
      simp [writeLock, hsec, hg, hc1]
    rw [heq, writeLockPut_putLog l env c1 true hu]
    exact runPut_log_ne_nil env.putOutcomes

/-! ## The watch loop -/

/-- C4: the claim that the watch loop tolerates watchRetryMax consecutive
failed GETs is false: the loop checks `retries >= watchRetryMax - 1` before
each tick, so a third consecutive failure already makes the next iteration
surrender; a run over failing ticks breaks out after only 3 GETs. -/
theorem C4_counterexample : ¬ watchSurrenderClaim := by
  intro h
  have hfail : allFailHealthy sampleLock (List.replicate 4 failTick) := by
    intro e he
    have he2 : e = failTick := List.eq_of_mem_replicate he
    subst he2
    exact ⟨rfl, rfl, rfl, ⟨"E0", 0, some ⟨"k", "v", "A"⟩⟩, ⟨"k", "v", "A"⟩,
      rfl, rfl, rfl, by decide⟩
  have hres := h sampleLock (List.replicate 4 failTick) rfl hfail (by decide)
  rw [show (watchRun sampleLock 0 (List.replicate 4 failTick)).1 = 3 from by decide] at hres
  exact absurd hres (by decide)

/-- C4 (amended): over ticks whose GETs all fail while the cache stays
fresh and self-owned, the watch loop issues exactly watchRetryMax - 1
consecutive failed GETs and then breaks out, surrendering leadership; and
any successful GET still naming this instance resets the
consecutive-failure counter to zero. -/
theorem C4_watch_surrender (l : Lock) :
    (∀ (envs : List WatchTickEnv) (r : Nat), envs ≠ [] →
       allFailHealthy l envs → envs.length + r ≥ l.watchRetryMax →
       watchRun l r envs = (l.watchRetryMax - 1 - r, true))
    ∧ (∀ (retries : Nat) (env : WatchTickEnv) (c : LockCache)
        (rec r2 : LockRecord),
       env.stopAtTop = false → env.stopDuringWait = false →
       retries < l.watchRetryMax - 1 →
       env.cache = some c → c.lockRecord = some rec →
       rec.Identity = l.identity → env.now - c.lastUpdate ≤ l.ttl →
       env.getRes = WatchGet.ok (some r2) → r2.Identity = l.identity →
       watchStep l retries env = (WatchStepOut.next 0, true)) := by
  constructor
  · intro envs
    induction envs with
    | nil => intro r hne _ _; exact absurd rfl hne
    | cons e rest ih =>
        intro r _ hfail hlen
        obtain ⟨h1, h2, h3, c, rec, hc, hrec, hid, httl⟩ :=
          hfail e (List.mem_cons_self e rest)
        by_cases hr : r ≥ l.watchRetryMax - 1
        · have hstep : watchStep l r e = (WatchStepOut.broke, false) := by
            simp [watchStep, h1, hr]
          simp only [watchRun, hstep]
          have : l.watchRetryMax - 1 - r = 0 := by omega
          simp [this]
        · have hstep : watchStep l r e = (WatchStepOut.next (r + 1), true) := by
            simp [watchStep, h1, h2, h3, hr, hc, hrec, hid, Nat.not_lt.mpr httl]
          cases rest with
          | nil =>
              exfalso
              simp only [List.length_cons, List.length_nil] at hlen
              omega
          | cons e2 rest2 =>
              have htail : allFailHealthy l (e2 :: rest2) := by
                intro e' he'
                exact hfail e' (List.mem_cons_of_mem _ he')
              have hlen2 : (e2 :: rest2).length + (r + 1) ≥ l.watchRetryMax := by
                simp only [List.length_cons] at hlen ⊢
                omega
              have hrec2 := ih (r + 1) (by simp) htail hlen2
              rw [watchRun, hstep]
              show (1 + (watchRun l (r + 1) (e2 :: rest2)).1,
                  (watchRun l (r + 1) (e2 :: rest2)).2) =
                (l.watchRetryMax - 1 - r, true)
              rw [hrec2]
              simp only [Prod.mk.injEq, and_true]
              omega
  · intro retries env c rec r2 h1 h2 hr hc hrec hid httl hget hid2
    simp [watchStep, h1, h2, Nat.not_le.mpr hr, hc, hrec, hid,
      Nat.not_lt.mpr httl, hget, hid2]

/-! ## Unlock -/

/-- A lock is never held after Unlock returns, whatever the remote calls
did. -/
theorem Unlock_not_held (l : Lock) (env : UnlockEnv) :
    (Unlock l env).lockAfter.held = false := by
  by_cases hheld : l.held
  · cases hg : env.getResult with
    | err => simp [Unlock, hheld, hg]
    | ok rec etag =>
        cases rec with
        | none => simp [Unlock, hheld, hg]
        | some r =>
            by_cases hid : r.Identity = l.identity
            all_goals by_cases hu : env.uuidOk
            all_goals simp [Unlock, hheld, hg, hid, hu]
  · simp only [Bool.not_eq_true] at hheld
    simp [Unlock, hheld]

/-- One Unlock call issues at most one DELETE. -/
theorem Unlock_deletes_le_one (l : Lock) (env : UnlockEnv) :
    countDeletes (Unlock l env).calls ≤ 1 := by
  by_cases hheld : l.held
  · cases hg : env.getResult with
    | err => simp [Unlock, hheld, hg, countDeletes]
    | ok rec etag =>
        cases rec with
        | none => simp [Unlock, hheld, hg, countDeletes]
        | some r =>
            by_cases hid : r.Identity = l.identity
            all_goals by_cases hu : env.uuidOk
            all_goals simp [Unlock, hheld, hg, hid, hu, countDeletes]
  · simp only [Bool.not_eq_true] at hheld
    simp [Unlock, hheld, countDeletes]

/-- C6: the claim that the DELETE issued by Unlock carries the cached ETag
is false: Unlock performs its own GET and conditions the DELETE on the ETag
that GET returned, which can differ from the one stored in
lockRecordCache. -/
theorem C6_counterexample : ¬ unlockDeleteUsesCachedEtag := by
  intro h
  obtain ⟨c, hc, hetag⟩ :=
    h sampleLock ⟨GetResult.ok (some ⟨"k", "v", "A"⟩) ("EREMOTE"), true, true⟩
      ("EREMOTE") (by decide)
  rw [show sampleLock.lockRecordCache =
      some (⟨"E0", 0, some ⟨"k", "v", "A"⟩⟩ : LockCache) from rfl] at hc
  injection hc with hc2
  subst hc2
  exact absurd hetag (by decide)

/-- C6 (amended): Unlock on a held lock first closes stopCh (stopping the
background loops) and clears held, then GETs the current record; when that
record still names this instance identity the remote object is deleted with
a conditional DELETE whose IfMatch is the ETag the GET returned, and no
DELETE is issued when the record is absent or names another identity. -/
theorem C6_release_protocol (l : Lock) (env : UnlockEnv) :
    (∀ r e, l.held = true → env.getResult = GetResult.ok (some r) e →
       r.Identity = l.identity → env.uuidOk = true →
       (Unlock l env).calls = [RemoteCall.getCall, RemoteCall.deleteCall e] ∧
       (Unlock l env).lockAfter.stopped = true ∧
       (Unlock l env).lockAfter.held = false)
    ∧ (∀ r e, env.getResult = GetResult.ok (some r) e →
       r.Identity ≠ l.identity → countDeletes (Unlock l env).calls = 0)
    ∧ (∀ e, env.getResult = GetResult.ok none e →
       countDeletes (Unlock l env).calls = 0)
    ∧ (∀ e, RemoteCall.deleteCall e ∈ (Unlock l env).calls →
       ∃ r, env.getResult = GetResult.ok (some r) e ∧
         r.Identity = l.identity) := by
  refine ⟨?_, ?_, ?_, ?_⟩
  · intro r e hheld hg hid hu
    simp [Unlock, hheld, hg, hid, hu]
  · intro r e hg hid
    by_cases hheld : l.held
    · simp [Unlock, hheld, hg, hid, countDeletes]
    · simp only [Bool.not_eq_true] at hheld
      simp [Unlock, hheld, countDeletes]
  · intro e hg
    by_cases hheld : l.held
    · simp [Unlock, hheld, hg, countDeletes]
    · simp only [Bool.not_eq_true] at hheld
      simp [Unlock, hheld, countDeletes]
  · intro e he
    by_cases hheld : l.held
    · cases hg : env.getResult with
      | err => simp [Unlock, hheld, hg] at he
      | ok rec etag =>
          cases rec with
          | none => simp [Unlock, hheld, hg] at he
          | some r =>
              by_cases hid : r.Identity = l.identity
              · by_cases hu : env.uuidOk
                · simp only [Unlock, hheld, hg, hid, hu] at he
                  simp only [if_true, List.mem_cons, List.mem_singleton] at he
                  rcases he with he | he | he
                  · exact absurd he (by simp)
                  · injection he with he2
                    subst he2
                    exact ⟨r, rfl, hid⟩
                  · simp at he
                · simp [Unlock, hheld, hg, hid, hu] at he
              · simp [Unlock, hheld, hg, hid] at he
    · simp only [Bool.not_eq_true] at hheld
      simp [Unlock, hheld] at he

/-- C7: Unlock on a lock that is not held returns nil without issuing any
remote call, and a second Unlock in sequence returns nil, issues no remote
call, and the two calls together issue at most one DELETE. -/
theorem C7_idempotent_release (l : Lock) (env1 env2 : UnlockEnv) :
    (l.held = false → Unlock l env1 = ⟨l, [], false⟩)
    ∧ Unlock (Unlock l env1).lockAfter env2 =
        ⟨(Unlock l env1).lockAfter, [], false⟩
    ∧ countDeletes ((Unlock l env1).calls ++
        (Unlock (Unlock l env1).lockAfter env2).calls) ≤ 1 := by
  have hnotheld : ∀ l2 : Lock, l2.held = false →
      Unlock l2 env2 = ⟨l2, [], false⟩ := by
    intro l2 hl2
    simp [Unlock, hl2]
  refine ⟨?_, ?_, ?_⟩
  · intro hheld
    simp [Unlock, hheld]
  · exact hnotheld _ (Unlock_not_held l env1)
  · rw [hnotheld _ (Unlock_not_held l env1)]
    simp only [List.append_nil]
    exact Unlock_deletes_le_one l env1

/-! ## Lock construction and tunables -/

/-- C8: the claim that construction rejects violating duration settings is
false: no validation exists anywhere on the construction path, so a lock
whose durations violate the safety relation is built without error. -/
theorem C8_counterexample : ¬ constructionValidatesDurations := by
  intro h
  exact absurd (h (Except.ok ("id")) ("k") ("v") 3000 5000 50000 2000 4 (by decide))
    (by decide)

/-- C8 (amended): the package-constant tunables satisfy
lockCacheMinAcceptableAge > ttl > renewInterval and every lock LockWith
builds carries exactly those constants, hence satisfies the relation; but
the implementation never validates: construction succeeds exactly when UUID
generation succeeds, whatever durations are then installed. -/
theorem C8_defaults_no_validation :
    (LockCacheMinAcceptableAge > LockTTL ∧ LockTTL > LockRenewInterval)
    ∧ (∀ (u : Except Unit String) (k v : String) (l : Lock),
        LockWith u k v = Except.ok l →
        LockCacheMinAcceptableAge > l.ttl ∧ l.ttl > l.renewInterval)
    ∧ (∀ (u : Except Unit String) (k v : String) (renew retry ttl wI wM : Nat),
        exceptOk (configuredLock u k v renew retry ttl wI wM) =
          (match u with | Except.ok _ => true | Except.error _ => false)) := by
  refine ⟨by decide, ?_, ?_⟩
  · intro u k v l h
    cases u with
    | error e => simp [LockWith] at h
    | ok i =>
        simp only [LockWith, Except.ok.injEq] at h
        subst h
        show LockCacheMinAcceptableAge > LockTTL ∧ LockTTL > LockRenewInterval
        decide
  · intro u k v renew retry ttl wI wM
    cases u with
    | error e => simp [configuredLock, LockWith, exceptOk]
    | ok i => simp [configuredLock, LockWith, setTestDurations, exceptOk]

/-! ## Witnesses: the theorems above evaluated at concrete inputs -/

/-- Evaluation of C2 at concrete inputs: a stale secondary observing a live
foreign record under a new ETag is gated with no PUT issued, and a 404
observation proceeds to a PUT. -/
theorem C2_freshness_gate_witness :
    writeLock sampleLock envGate =
      ⟨WLOutcome.res false false, some ⟨"EB", 99999, some ⟨"k", "v", "B"⟩⟩,
        true, none, none, []⟩ ∧
    (writeLock sampleLock envAbsent).putLog ≠ [] :=
  ⟨(C2_freshness_gate sampleLock envGate (by decide)).1 ⟨"k", "v", "B"⟩ ("EB")
      ⟨"EB", 99999, some ⟨"k", "v", "B"⟩⟩ rfl (by decide) (by decide),
    (C2_freshness_gate sampleLock envAbsent (by decide)).2 ("") rfl rfl⟩

/-- Evaluation of C5 at a concrete input: the PUT after a 404 observation
carries IfNoneMatch star and no IfMatch. -/
theorem C5_cas_honesty_witness :
    ∃ c, (writeLock sampleLock envAbsent).cacheAtPut = some c ∧
      ((c.etag = "" ∧ (⟨none, some ("*")⟩ : PutRequestPre).ifMatch = none ∧
          (⟨none, some ("*")⟩ : PutRequestPre).ifNoneMatch = some ("*")) ∨
       (c.etag ≠ "" ∧
          (⟨none, some ("*")⟩ : PutRequestPre).ifMatch = some c.etag ∧
          (⟨none, some ("*")⟩ : PutRequestPre).ifNoneMatch = none)) :=
  C5_cas_honesty sampleLock envAbsent ⟨none, some ("*")⟩ (by decide)

/-- Evaluation of C9 at a concrete input: a successful renewal stores the
fresh self-owned cache under the returned ETag. -/
theorem C9_success_witness :
    false = false ∧ ∃ e, envRenew.putOutcomes 1 = PutOutcome.ok e ∧
      (writeLock sampleLock envRenew).putLog = [⟨1, PutOutcome.ok e, 0⟩] ∧
      (writeLock sampleLock envRenew).cacheAfter =
        some ⟨e, envRenew.tFinal,
          some ⟨sampleLock.key, sampleLock.value, sampleLock.identity⟩⟩ :=
  C9_success_stores_self_owned_cache sampleLock envRenew false (by decide)

/-- Evaluation of C10 at a concrete input. -/
theorem C10_no_deref_witness :
    (writeLock sampleLock envRenew).outcome ≠ WLOutcome.nilCacheDeref :=
  C10_no_nil_cache_deref sampleLock envRenew

/-- Evaluation of the amended C3 at a concrete input: an all-5xx store
answers four logged attempts, the second of which slept 200 ms. -/
theorem C3_put_retry_policy_witness :
    (runPut (fun _ => PutOutcome.http 503)).log.length =
      min LockWriteRetriesOnFailures
        (leading5 (fun _ => PutOutcome.http 503) LockWriteRetriesOnFailures 1
          + 1) ∧
    ((⟨2, PutOutcome.http 503, 200⟩ : PutAttemptLog).outcome =
        (fun _ => PutOutcome.http 503)
          ((⟨2, PutOutcome.http 503, 200⟩ : PutAttemptLog).idx) ∧
      (⟨2, PutOutcome.http 503, 200⟩ : PutAttemptLog).sleptMs =
        (if (⟨2, PutOutcome.http 503, 200⟩ : PutAttemptLog).outcome.is5xx then
          100 * (⟨2, PutOutcome.http 503, 200⟩ : PutAttemptLog).idx else 0)) :=
  ⟨(C3_put_retry_policy (fun _ => PutOutcome.http 503)).1,
    (C3_put_retry_policy (fun _ => PutOutcome.http 503)).2.1
      ⟨2, PutOutcome.http 503, 200⟩ (by decide)⟩

/-- Evaluation of the amended C4 at concrete inputs: four all-failing ticks
surrender after three GETs and a successful self-naming GET resets the
counter. -/
theorem C4_watch_surrender_witness :
    watchRun sampleLock 0 (List.replicate 4 failTick) =
      (sampleLock.watchRetryMax - 1 - 0, true) ∧
    watchStep sampleLock 0 okTick = (WatchStepOut.next 0, true) :=
  ⟨(C4_watch_surrender sampleLock).1 (List.replicate 4 failTick) 0 (by simp)
      (fun e he => by
        have he2 : e = failTick := List.eq_of_mem_replicate he
        subst he2
        exact ⟨rfl, rfl, rfl, ⟨"E0", 0, some ⟨"k", "v", "A"⟩⟩,
          ⟨"k", "v", "A"⟩, rfl, rfl, rfl, by decide⟩)
      (by decide),
    (C4_watch_surrender sampleLock).2 0 okTick ⟨"E0", 0, some ⟨"k", "v", "A"⟩⟩
      ⟨"k", "v", "A"⟩ ⟨"k", "v", "A"⟩ rfl rfl (by decide) rfl rfl rfl
      (by decide) rfl rfl⟩

/-- Evaluation of the amended C6 at a concrete input: the DELETE carries
the ETag the GET inside Unlock observed. -/
theorem C6_release_witness :
    (Unlock sampleLock sampleUnlockEnv).calls =
      [RemoteCall.getCall, RemoteCall.deleteCall ("EREMOTE")] ∧
    (Unlock sampleLock sampleUnlockEnv).lockAfter.stopped = true ∧
    (Unlock sampleLock sampleUnlockEnv).lockAfter.held = false :=
  (C6_release_protocol sampleLock sampleUnlockEnv).1 ⟨"k", "v", "A"⟩
    ("EREMOTE") rfl rfl rfl rfl

/-- Evaluation of C7 at a concrete input: an unheld lock unlocks to nil
with no remote call. -/
theorem C7_idempotent_witness :
    Unlock sampleUnheld sampleUnlockEnv = ⟨sampleUnheld, [], false⟩ :=
  (C7_idempotent_release sampleUnheld sampleUnlockEnv sampleUnlockEnv).1 rfl

/-- Evaluation of the amended C8 at a concrete input: the constructed lock
satisfies the safety relation. -/
theorem C8_defaults_witness :
    LockCacheMinAcceptableAge > sampleConstructedLock.ttl ∧
    sampleConstructedLock.ttl > sampleConstructedLock.renewInterval :=
  (C8_defaults_no_validation).2.1 (Except.ok ("id")) ("k") ("v")
    sampleConstructedLock rfl

end Oci
